import Mathlib

/-!
Verification of the pricing/estimation engine and cart model of the
Double Oak construction-estimating calculator.

The Python source is shallowly embedded: Python `float` arithmetic is
modelled over `ℚ` (exact rational semantics of the written expressions),
`math.ceil` is `Int.ceil`, fallible operations return `Option`, and the
session-state mutations of the Streamlit page are modelled as explicit
state-passing functions.  Each definition mirrors one Python function or
one contiguous block of the page's straight-line computation.
-/

/-- Python's guarded float division: `a / b` raises `ZeroDivisionError`
when `b == 0`; we model the raising path as `none`. -/
def pyDiv (a b : ℚ) : Option ℚ :=
  if b = 0 then none else some (a / b)

namespace Pricing
/-! ## `core/pricing.py` (module-level constants from `core/settings.py`) -/

def SALES_TAX_RATE : ℚ := 0.0825
def ROLL_LENGTH_FT : ℚ := 100
def PRODUCTION_RATE_LF_PER_DAY : ℚ := 3000
def PRODUCTION_MIN_PER_DAY : ℚ := 480
def FUEL_RATE_PER_DAY : ℚ := 100
def LOCKED_LABOR_PER_DAY : ℚ := 554.34

def get_labor_per_day : ℚ := LOCKED_LABOR_PER_DAY

/-- `required_footage(total_ft, waste_pct)`: `math.ceil(total_ft * (1 + (waste_pct or 0) / 100.0))`.
`waste_pct or 0` only replaces a zero/`None` value by `0`, which is the
identity on integer values, so the embedding applies no clamping. -/
def required_footage (total_ft waste_pct : ℤ) : ℤ :=
  ⌈(total_ft : ℚ) * (1 + (waste_pct : ℚ) / 100)⌉

/-- `posts_needed(required_ft, spacing_ft)`. -/
def posts_needed (required_ft spacing_ft : ℤ) : ℤ :=
  if required_ft > 0 then ⌈(required_ft : ℚ) / (spacing_ft : ℚ)⌉ + 1 else 0

/-- `rolls_needed(required_ft)`. -/
def rolls_needed (required_ft : ℤ) : ℤ :=
  if required_ft > 0 then ⌈(required_ft : ℚ) / ROLL_LENGTH_FT⌉ else 0

/-- `job_days_silt(required_ft)`. -/
def job_days_silt (required_ft : ℤ) : ℤ :=
  if required_ft > 0 then ⌈(required_ft : ℚ) / PRODUCTION_RATE_LF_PER_DAY⌉ else 0

/-- `job_days_inlet(total_minutes)`. -/
def job_days_inlet (total_minutes : ℤ) : ℤ :=
  if total_minutes > 0 then ⌈(total_minutes : ℚ) / PRODUCTION_MIN_PER_DAY⌉ else 0

/-- `fuel_cost(days, any_work)`. -/
def fuel_cost (days : ℤ) (any_work : Bool) : ℚ :=
  FUEL_RATE_PER_DAY * (if any_work then (max 1 days : ℤ) else 0)

/-- `unit_cost_per_lf`: the division runs only under the truthiness guard
`if required_ft` (i.e. `required_ft ≠ 0`), else `0.0`. -/
def unit_cost_per_lf (required_ft materials_subtotal tax labor_cost fuel : ℚ) : Option ℚ :=
  if required_ft ≠ 0 then pyDiv (materials_subtotal + tax + labor_cost + fuel) required_ft
  else some 0

/-- `unit_cost_per_unit`: same guard on `qty`. -/
def unit_cost_per_unit (qty materials_subtotal tax labor_cost fuel : ℚ) : Option ℚ :=
  if qty ≠ 0 then pyDiv (materials_subtotal + tax + labor_cost + fuel) qty
  else some 0

/-- `margin(final_price_unit, unit_cost_unit)`: divides only when
`final_price_unit > 0`, else `0.0`. -/
def margin (final_price_unit unit_cost_unit : ℚ) : Option ℚ :=
  if final_price_unit > 0 then pyDiv (final_price_unit - unit_cost_unit) final_price_unit
  else some 0

end Pricing

namespace P
/-! ## The `_P` helper class inside `pages/01_Silt_Fence.py` -/

/-- `_P.required_footage`: clamps both arguments at `0` and returns the
exact product `tl * (1 + wp / 100.0)` (no `ceil`). -/
def required_footage (total_lf waste_pct : ℚ) : ℚ :=
  (max 0 total_lf) * (1 + (max 0 waste_pct) / 100)

/-- `_P.posts_needed`. -/
def posts_needed (required_ft : ℚ) (spacing_ft : ℤ) : ℤ :=
  let rf := max 0 required_ft
  let sp := max 1 spacing_ft
  if rf > 0 then ⌈rf / (sp : ℚ)⌉ + 1 else 0

/-- `_P.rolls_needed`. -/
def rolls_needed (required_ft : ℚ) (roll_len : ℤ) : ℤ :=
  let rf := max 0 required_ft
  let rl := max 1 roll_len
  if rf > 0 then ⌈rf / (rl : ℚ)⌉ else 0

def get_labor_per_day : ℚ := 554.34

/-- `_P.fuel_cost(days, any_work) = 65.0 * max(0, int(days)) if any_work else 0.0`.
Note the `max(0, ...)`, not `max(1, ...)`. -/
def fuel_cost (days : ℤ) (any_work : Bool) : ℚ :=
  if any_work then 65 * (max 0 days : ℤ) else 0

/-- `_P.unit_cost_per_lf`: clamps `required_ft` at `0` and divides only when
the clamped value is `> 0`, else `0.0`. -/
def unit_cost_per_lf (required_ft mat_sub tax labor fuel : ℚ) : Option ℚ :=
  let rf := max 0 required_ft
  if rf > 0 then pyDiv (mat_sub + tax + labor + fuel) rf else some 0

/-- `_P.margin`: divides only when `sell_per_lf > 0`, else `0.0`. -/
def margin (sell_per_lf unit_cost_per_lf_val : ℚ) : Option ℚ :=
  if sell_per_lf > 0 then pyDiv (sell_per_lf - unit_cost_per_lf_val) sell_per_lf
  else some 0

/-- `_P.materials_breakdown` with the default tax rate
(`_tax_rate_default = cfg.SALES_TAX_RATE = 0.0825`); returns
`(fabric_cost, hardware_cost, materials_subtotal, tax)`. -/
def materials_breakdown (required_ft cost_per_lf : ℚ) (posts_count : ℤ)
    (post_unit_cost : ℚ) : ℚ × ℚ × ℚ × ℚ :=
  let rf := max 0 required_ft
  let cplf := max 0 cost_per_lf
  let pc := max 0 posts_count
  let puc := max 0 post_unit_cost
  let fabric_cost := rf * cplf
  let hardware_cost := (pc : ℚ) * puc
  let materials_subtotal := fabric_cost + hardware_cost
  let tax := materials_subtotal * Pricing.SALES_TAX_RATE
  (fabric_cost, hardware_cost, materials_subtotal, tax)

end P

namespace SF
/-! ## `pages/01_Silt_Fence.py`: removal pricing -/

/-- `_calc_removal_pricing(required_ft, final_price_per_lf)`, returning
`(removal_unit_price_lf, removal_total)`. -/
def calc_removal_pricing (required_ft final_price_per_lf : ℚ) : ℚ × ℚ :=
  if required_ft ≤ 0 then (0, 0)
  else
    let u0 := final_price_per_lf * 0.40
    let u1 := if required_ft < 800 then max u0 1.15 else max u0 0.90
    let t := u1 * required_ft
    if t < 800 then (800 / required_ft, 800) else (u1, t)

end SF

/-- C1: for fence categories with removal selected and required quantity > 0,
the removal unit price equals `max(final_price_per_unit * 0.40, floor)` with
`floor = 1.15` below 800 LF and `0.90` otherwise, `removal_total` is
`unit * required_quantity` forced up to exactly `800.00` whenever it falls
below `800` (the unit price then being recomputed as `800 / required_quantity`);
at `required_quantity = 500`, `final_price_per_unit = 2.50` the pre-floor unit
price is `1.15`, the raw total `575.00` is forced to `800.00`, and the
recomputed unit price is `1.60`. -/
theorem C1_removal_pricing (r f : ℚ) (hr : 0 < r) :
    (let floor : ℚ := if r < 800 then 1.15 else 0.90
     let u0 : ℚ := max (f * 0.40) floor
     SF.calc_removal_pricing r f =
       if u0 * r < 800 then (800 / r, 800) else (u0, u0 * r)) ∧
    (SF.calc_removal_pricing r f).2 =
      max ((max (f * 0.40) (if r < 800 then 1.15 else 0.90)) * r) 800 ∧
    (SF.calc_removal_pricing r f).1 * r = (SF.calc_removal_pricing r f).2 ∧
    (SF.calc_removal_pricing 500 (5/2) = (8/5, 800) ∧
      max ((5/2 : ℚ) * 0.40) 1.15 = 1.15 ∧ (1.15 : ℚ) * 500 = 575) := by
  have hr0 : r ≠ 0 := ne_of_gt hr
  have hnle : ¬ r ≤ 0 := not_le.mpr hr
  have hnf : SF.calc_removal_pricing r f =
      (let u0 : ℚ := max (f * 0.40) (if r < 800 then 1.15 else 0.90)
       if u0 * r < 800 then (800 / r, 800) else (u0, u0 * r)) := by
    by_cases hc : r < 800 <;>
      simp only [SF.calc_removal_pricing, hnle, if_false, hc, if_true]
  refine ⟨hnf, ?_, ?_, ?_⟩
  · rw [hnf]
    set u0 : ℚ := max (f * 0.40) (if r < 800 then 1.15 else 0.90) with hu0
    by_cases h : u0 * r < 800
    · simp only [h, if_true]
      exact (max_eq_right (le_of_lt h)).symm
    · simp only [h, if_false]
      exact (max_eq_left (not_lt.mp h)).symm
  · rw [hnf]
    set u0 : ℚ := max (f * 0.40) (if r < 800 then 1.15 else 0.90) with hu0
    by_cases h : u0 * r < 800
    · simp only [h, if_true]
      exact div_mul_cancel₀ (800 : ℚ) hr0
    · simp only [h, if_false]
  · refine ⟨?_, by norm_num, by norm_num⟩
    norm_num [SF.calc_removal_pricing]

/-- Witness for C1 at `r = 500`, `f = 5/2`. -/
theorem C1_removal_pricing_witness :
    (0 : ℚ) < 500 ∧ (SF.calc_removal_pricing 500 (5/2)).2 =
      max ((max ((5/2 : ℚ) * 0.40) (if (500:ℚ) < 800 then 1.15 else 0.90)) * 500) 800 :=
  ⟨by norm_num, (C1_removal_pricing 500 (5/2) (by norm_num)).2.1⟩

/-- C2 counterexample: the claim states the required-quantity calculation
treats any `waste_pct ≤ 0` as `0` and returns `ceil(total * (1 + waste/100))`.
`core.pricing.required_footage(100, -50)` evaluates to `50`, not the claimed
`ceil(100 * 1) = 100` (the `or 0` idiom only replaces the value `0`; negative
waste is not clamped), and the page helper `_P.required_footage(1, 1)` returns
the un-ceiled `1.01`, not `ceil(1.01) = 2`. -/
theorem C2_required_quantity_counterexample :
    Pricing.required_footage 100 (-50) = 50 ∧
    (⌈(100 : ℚ) * (1 + (0 : ℚ) / 100)⌉ : ℤ) = 100 ∧
    P.required_footage 1 1 = 101 / 100 ∧
    ((101 : ℚ) / 100 ≠ ((⌈(1 : ℚ) * (1 + (1 : ℚ) / 100)⌉ : ℤ) : ℚ)) := by
  refine ⟨?_, ?_, ?_, ?_⟩
  · show (⌈(100 : ℚ) * (1 + (-50 : ℚ) / 100)⌉ : ℤ) = 50
    norm_num
  · rw [show (100 : ℚ) * (1 + 0 / 100) = ((100 : ℤ) : ℚ) by norm_num, Int.ceil_intCast]
  · show max 0 (1 : ℚ) * (1 + max 0 (1 : ℚ) / 100) = 101 / 100
    norm_num
  · rw [show (1 : ℚ) * (1 + 1 / 100) = 101/100 by norm_num]
    have h2 : (⌈(101 : ℚ)/100⌉ : ℤ) = 2 := by
      rw [Int.ceil_eq_iff]
      norm_num
    rw [h2]; norm_num

/-- C2 amended: `core.pricing.required_footage` returns
`ceil(total * (1 + waste_pct/100))` where only a waste percentage of exactly
`0` is treated as `0` (negative values are not clamped and scale the result
down), while the page helper `_P.required_footage` clamps negative inputs at
`0` but returns the exact un-ceiled product; for all `total ≥ 0` and
`waste_pct ≥ 0` both results are at least `total`, with equality when
`waste_pct = 0`. -/
theorem C2_required_quantity_amended (total waste : ℤ)
    (ht : 0 ≤ total) (hw : 0 ≤ waste) :
    Pricing.required_footage total waste = ⌈(total : ℚ) * (1 + (waste : ℚ) / 100)⌉ ∧
    total ≤ Pricing.required_footage total waste ∧
    Pricing.required_footage total 0 = total ∧
    (total : ℚ) ≤ P.required_footage (total : ℚ) (waste : ℚ) ∧
    P.required_footage (total : ℚ) 0 = total := by
  have htq : (0 : ℚ) ≤ (total : ℚ) := by exact_mod_cast ht
  have hwq : (0 : ℚ) ≤ (waste : ℚ) := by exact_mod_cast hw
  have hfac : (1 : ℚ) ≤ 1 + (waste : ℚ) / 100 := by
    have : (0 : ℚ) ≤ (waste : ℚ) / 100 := by positivity
    linarith
  have hmul : (total : ℚ) ≤ (total : ℚ) * (1 + (waste : ℚ) / 100) :=
    le_mul_of_one_le_right htq hfac
  refine ⟨rfl, ?_, ?_, ?_, ?_⟩
  · calc total = ⌈((total : ℚ))⌉ := (Int.ceil_intCast total).symm
    _ ≤ ⌈(total : ℚ) * (1 + (waste : ℚ) / 100)⌉ := Int.ceil_le_ceil hmul
  · show (⌈(total : ℚ) * (1 + (0 : ℚ) / 100)⌉ : ℤ) = total
    rw [show (total : ℚ) * (1 + (0 : ℚ) / 100) = ((total : ℤ) : ℚ) by norm_num,
      Int.ceil_intCast]
  · show (total : ℚ) ≤ max 0 (total : ℚ) * (1 + max 0 (waste : ℚ) / 100)
    rw [max_eq_right htq, max_eq_right hwq]
    exact hmul
  · show max 0 (total : ℚ) * (1 + max 0 (0 : ℚ) / 100) = total
    rw [max_eq_right htq]
    norm_num

/-- Witness for C2 amended at `total = 1000`, `waste = 2`. -/
theorem C2_required_quantity_amended_witness :
    (0 : ℤ) ≤ 1000 ∧ (0 : ℤ) ≤ 2 ∧
      (1000 : ℤ) ≤ Pricing.required_footage 1000 2 :=
  ⟨by decide, by decide,
    (C2_required_quantity_amended 1000 2 (by decide) (by decide)).2.1⟩

/-- C6: every division in the unit-cost and margin helpers (both the
`core.pricing` versions and the page `_P` versions) is guarded by its
divisor, so the computation never reaches Python's raising division
(modelled: the result is never `none`) and a zero quantity or zero sell
price short-circuits the result to `0`. All values are rationals, so no
NaN/Infinity can arise. -/
theorem C6_division_guards :
    (∀ rf ms tax lc fu : ℚ, (Pricing.unit_cost_per_lf rf ms tax lc fu).isSome) ∧
    (∀ q ms tax lc fu : ℚ, (Pricing.unit_cost_per_unit q ms tax lc fu).isSome) ∧
    (∀ fp uc : ℚ, (Pricing.margin fp uc).isSome) ∧
    (∀ rf ms tax lc fu : ℚ, (P.unit_cost_per_lf rf ms tax lc fu).isSome) ∧
    (∀ sp uc : ℚ, (P.margin sp uc).isSome) ∧
    (∀ ms tax lc fu : ℚ, Pricing.unit_cost_per_lf 0 ms tax lc fu = some 0) ∧
    (∀ ms tax lc fu : ℚ, Pricing.unit_cost_per_unit 0 ms tax lc fu = some 0) ∧
    (∀ uc : ℚ, Pricing.margin 0 uc = some 0) ∧
    (∀ ms tax lc fu : ℚ, P.unit_cost_per_lf 0 ms tax lc fu = some 0) ∧
    (∀ uc : ℚ, P.margin 0 uc = some 0) := by
  refine ⟨?_, ?_, ?_, ?_, ?_, ?_, ?_, ?_, ?_, ?_⟩
  · intro rf ms tax lc fu
    by_cases h : rf = 0 <;> simp [Pricing.unit_cost_per_lf, pyDiv, h]
  · intro q ms tax lc fu
    by_cases h : q = 0 <;> simp [Pricing.unit_cost_per_unit, pyDiv, h]
  · intro fp uc
    by_cases h : fp > 0 <;>
      simp [Pricing.margin, pyDiv, h, ne_of_gt, *]
  · intro rf ms tax lc fu
    by_cases h : max 0 rf > 0 <;>
      simp [P.unit_cost_per_lf, pyDiv, h, ne_of_gt, *]
  · intro sp uc
    by_cases h : sp > 0 <;>
      simp [P.margin, pyDiv, h, ne_of_gt, *]
  · intro ms tax lc fu; simp [Pricing.unit_cost_per_lf]
  · intro ms tax lc fu; simp [Pricing.unit_cost_per_unit]
  · intro uc; simp [Pricing.margin]
  · intro ms tax lc fu; simp [P.unit_cost_per_lf]
  · intro uc; simp [P.margin]

namespace SF
/-! ## `pages/01_Silt_Fence.py`: the straight-line cost pipeline
(lines 467-535).  The raw form inputs become fields of `Inputs`;
`include_caps` stands for the full Python condition
`fencing_category == "Silt Fence" and post_type == "T-Post" and
include_caps and cap_type`. -/

structure Inputs where
  total_job_footage : ℤ
  waste_pct : ℤ
  post_spacing_ft : ℤ
  cost_per_lf : ℚ
  post_unit_cost : ℚ
  caps_unit_cost : ℚ
  include_caps : Bool
  final_price_per_lf : ℚ
  removal_selected : Bool
  remove_tax : Bool

/-- `_tax_rate = _tax_rate_default = cfg.SALES_TAX_RATE`. -/
def tax_rate : ℚ := Pricing.SALES_TAX_RATE

/-- `required_ft = p.required_footage(total_job_footage, waste_pct)`. -/
def required_ft (i : Inputs) : ℚ :=
  P.required_footage (i.total_job_footage : ℚ) (i.waste_pct : ℚ)

/-- `safe_spacing = max(1, int(post_spacing_ft or 0))`. -/
def safe_spacing (i : Inputs) : ℤ := max 1 i.post_spacing_ft

/-- `posts_count = p.posts_needed(required_ft, safe_spacing)`. -/
def posts_count (i : Inputs) : ℤ := P.posts_needed (required_ft i) (safe_spacing i)

/-- `caps_qty = posts_count` when caps apply, else `0`. -/
def caps_qty (i : Inputs) : ℤ := if i.include_caps then posts_count i else 0

/-- `caps_cost = caps_qty * caps_unit_cost`. -/
def caps_cost (i : Inputs) : ℚ := (caps_qty i : ℚ) * i.caps_unit_cost

/-- `p.materials_breakdown(required_ft, cost_per_lf, posts_count, post_unit_cost)`. -/
def mats (i : Inputs) : ℚ × ℚ × ℚ × ℚ :=
  P.materials_breakdown (required_ft i) i.cost_per_lf (posts_count i) i.post_unit_cost

def fabric_cost (i : Inputs) : ℚ := (mats i).1
def hardware_cost (i : Inputs) : ℚ := (mats i).2.1
def materials_subtotal (i : Inputs) : ℚ := (mats i).2.2.1
def tax (i : Inputs) : ℚ := (mats i).2.2.2

/-- `materials_subtotal_all = materials_subtotal + caps_cost`. -/
def materials_subtotal_all (i : Inputs) : ℚ := materials_subtotal i + caps_cost i

/-- `tax_all = tax + caps_cost * _tax_rate`. -/
def tax_all (i : Inputs) : ℚ := tax i + caps_cost i * tax_rate

/-- `CUSTOMER_QTY_LF = int(total_job_footage or 0)`. -/
def CUSTOMER_QTY_LF (i : Inputs) : ℤ := i.total_job_footage

/-- `(removal_unit_price_lf, removal_total)`: `_calc_removal_pricing(...)` when
`removal_selected`, else `(0.0, 0.0)`. -/
def removal (i : Inputs) : ℚ × ℚ :=
  if i.removal_selected then calc_removal_pricing (required_ft i) i.final_price_per_lf
  else (0, 0)

def removal_unit_price_lf (i : Inputs) : ℚ := (removal i).1
def removal_total (i : Inputs) : ℚ := (removal i).2

/-- `PROD_LF_PER_DAY = getattr(cfg, "PRODUCTION_LF_PER_DAY", 2500)`:
`core.settings` defines `PRODUCTION_RATE_LF_PER_DAY` but not
`PRODUCTION_LF_PER_DAY`, so the `getattr` default `2500` is used. -/
def PROD_LF_PER_DAY : ℚ := 2500

/-- `project_days = (required_ft / PROD_LF_PER_DAY) if required_ft > 0 else 0.0`
— fractional, not ceiled. -/
def project_days (i : Inputs) : ℚ :=
  if 0 < required_ft i then required_ft i / PROD_LF_PER_DAY else 0

/-- `labor_cost = project_days * labor_per_day` with
`labor_per_day = p.get_labor_per_day() = 554.34`. -/
def labor_cost (i : Inputs) : ℚ := project_days i * P.get_labor_per_day

/-- `billing_days = math.ceil(project_days) if required_ft > 0 else 0`. -/
def billing_days (i : Inputs) : ℤ :=
  if 0 < required_ft i then ⌈project_days i⌉ else 0

/-- `fuel = p.fuel_cost(billing_days, any_work=required_ft > 0)`. -/
def fuel (i : Inputs) : ℚ :=
  P.fuel_cost (billing_days i) (decide (0 < required_ft i))

/-- `sell_total_main = (final_price_per_lf * required_ft) if required_ft > 0 else 0.0`. -/
def sell_total_main (i : Inputs) : ℚ :=
  if 0 < required_ft i then i.final_price_per_lf * required_ft i else 0

/-- `caps_revenue = (caps_unit_cost * caps_qty) if (caps_qty and caps_unit_cost) else 0.0`. -/
def caps_revenue (i : Inputs) : ℚ :=
  if caps_qty i ≠ 0 ∧ i.caps_unit_cost ≠ 0 then i.caps_unit_cost * (caps_qty i : ℚ) else 0

/-- `removal_revenue = removal_total if (removal_selected and required_ft > 0) else 0.0`. -/
def removal_revenue (i : Inputs) : ℚ :=
  if i.removal_selected ∧ 0 < required_ft i then removal_total i else 0

/-- `customer_subtotal_display = sell_total_main + caps_revenue + removal_revenue`. -/
def customer_subtotal_display (i : Inputs) : ℚ :=
  sell_total_main i + caps_revenue i + removal_revenue i

/-- `customer_sales_tax = 0.0 if remove_tax else customer_subtotal_display * _tax_rate`. -/
def customer_sales_tax (i : Inputs) : ℚ :=
  if i.remove_tax then 0 else customer_subtotal_display i * tax_rate

/-- `customer_total = customer_subtotal_display + customer_sales_tax`. -/
def customer_total (i : Inputs) : ℚ :=
  customer_subtotal_display i + customer_sales_tax i

/-- `internal_total_cost = materials_subtotal_all + tax_all + labor_cost + fuel`. -/
def internal_total_cost (i : Inputs) : ℚ :=
  materials_subtotal_all i + tax_all i + labor_cost i + fuel i

/-- `subtotal_for_margin = sell_total_main + caps_revenue` — removal revenue
is not included. -/
def subtotal_for_margin (i : Inputs) : ℚ := sell_total_main i + caps_revenue i

/-- `gross_profit = subtotal_for_margin - internal_total_cost`. -/
def gross_profit (i : Inputs) : ℚ := subtotal_for_margin i - internal_total_cost i

/-- `profit_margin = (gross_profit / subtotal_for_margin) if subtotal_for_margin > 0 else 0.0`. -/
def profit_margin (i : Inputs) : ℚ :=
  if 0 < subtotal_for_margin i then gross_profit i / subtotal_for_margin i else 0

end SF

/-- C3: when the margin denominator is positive,
`profit_margin = (sell_total - all_in_cost) / sell_total` and `0` otherwise;
the denominator `subtotal_for_margin` is install plus caps revenue only, so
`profit_margin` is invariant under toggling removal, while the customer-facing
subtotal and total do include removal revenue. -/
theorem C3_margin_excludes_removal (i : SF.Inputs) :
    (0 < SF.subtotal_for_margin i →
      SF.profit_margin i =
        (SF.subtotal_for_margin i - SF.internal_total_cost i) / SF.subtotal_for_margin i) ∧
    (SF.subtotal_for_margin i ≤ 0 → SF.profit_margin i = 0) ∧
    SF.subtotal_for_margin i = SF.sell_total_main i + SF.caps_revenue i ∧
    SF.customer_subtotal_display i = SF.subtotal_for_margin i + SF.removal_revenue i ∧
    SF.customer_total i =
      SF.customer_subtotal_display i +
        (if i.remove_tax then 0 else SF.customer_subtotal_display i * SF.tax_rate) ∧
    (∀ b : Bool, SF.profit_margin { i with removal_selected := b } = SF.profit_margin i) ∧
    (∀ b : Bool, SF.subtotal_for_margin { i with removal_selected := b } =
      SF.subtotal_for_margin i) := by
  refine ⟨?_, ?_, rfl, ?_, rfl, fun b => rfl, fun b => rfl⟩
  · intro h
    simp only [SF.profit_margin, SF.gross_profit, h, if_true]
  · intro h
    simp only [SF.profit_margin, not_lt.mpr h, if_false]
  · simp only [SF.customer_subtotal_display, SF.subtotal_for_margin]

/-- Witness for C3 at a concrete input with a positive margin denominator. -/
theorem C3_margin_excludes_removal_witness :
    (0 : ℚ) < SF.subtotal_for_margin
        ⟨1000, 2, 8, 0.32, 1.80, 0, false, 2.5, false, false⟩ ∧
      SF.profit_margin ⟨1000, 2, 8, 0.32, 1.80, 0, false, 2.5, false, false⟩ =
        (SF.subtotal_for_margin ⟨1000, 2, 8, 0.32, 1.80, 0, false, 2.5, false, false⟩ -
            SF.internal_total_cost ⟨1000, 2, 8, 0.32, 1.80, 0, false, 2.5, false, false⟩) /
          SF.subtotal_for_margin ⟨1000, 2, 8, 0.32, 1.80, 0, false, 2.5, false, false⟩ := by
  have hpos : (0 : ℚ) < SF.subtotal_for_margin
      ⟨1000, 2, 8, 0.32, 1.80, 0, false, 2.5, false, false⟩ := by
    norm_num [SF.subtotal_for_margin, SF.sell_total_main, SF.caps_revenue, SF.caps_qty,
      SF.required_ft, P.required_footage]
  exact ⟨hpos,
    (C3_margin_excludes_removal ⟨1000, 2, 8, 0.32, 1.80, 0, false, 2.5, false, false⟩).1 hpos⟩

/-- C7 counterexample: the claim states labor cost equals
`crew_days * labor_rate_per_day` with `crew_days = ceil(required / rate_per_day)`.
On the silt fence page, `labor_cost = project_days * labor_per_day` with
fractional `project_days = required_ft / 2500`: at `total = 1250`, `waste = 0`
(`required_ft = 1250`) the page computes `0.5 * 554.34 = 277.17`, while the
claimed formula gives `ceil(0.5) * 554.34 = 554.34`. -/
theorem C7_labor_fuel_counterexample :
    SF.labor_cost ⟨1250, 0, 8, 0.32, 1.80, 0, false, 2.5, false, false⟩ = 277.17 ∧
    ((⌈SF.required_ft ⟨1250, 0, 8, 0.32, 1.80, 0, false, 2.5, false, false⟩ /
        SF.PROD_LF_PER_DAY⌉ : ℤ) : ℚ) * P.get_labor_per_day = 554.34 ∧
    (277.17 : ℚ) ≠ 554.34 := by
  have hreq : SF.required_ft ⟨1250, 0, 8, 0.32, 1.80, 0, false, 2.5, false, false⟩ = 1250 := by
    norm_num [SF.required_ft, P.required_footage]
  refine ⟨?_, ?_, by norm_num⟩
  · rw [SF.labor_cost, SF.project_days, hreq]
    norm_num [SF.PROD_LF_PER_DAY, P.get_labor_per_day]
  · rw [hreq]
    rw [show (1250 : ℚ) / SF.PROD_LF_PER_DAY = 1/2 by norm_num [SF.PROD_LF_PER_DAY]]
    rw [show (⌈(1 : ℚ)/2⌉ : ℤ) = 1 by rw [Int.ceil_eq_iff]; norm_num]
    norm_num [P.get_labor_per_day]

/-- C7 amended: billing/crew days are `ceil(required / rate_per_day)` when
`required > 0` and `0` otherwise (`job_days_silt` in `core.pricing` and
`billing_days` on the page), but the silt fence page's labor cost is computed
on the fractional `project_days = required_ft / 2500` (no ceiling):
`labor_cost = (required_ft / 2500) * 554.34`.  Fuel does follow the claim:
`core.pricing.fuel_cost = rate * max(1, days)` when work occurs and `0`
otherwise, and the page's `fuel = 65 * max(0, billing_days)` equals
`65 * max(1, billing_days)` whenever any work occurs, because
`billing_days ≥ 1` when `required_ft > 0` — so at least one fuel day is
billed whenever the required quantity is non-zero. -/
theorem C7_labor_fuel_amended (i : SF.Inputs) :
    (0 < SF.required_ft i →
      SF.billing_days i = ⌈SF.required_ft i / SF.PROD_LF_PER_DAY⌉ ∧
      1 ≤ SF.billing_days i ∧
      SF.labor_cost i = SF.required_ft i / SF.PROD_LF_PER_DAY * P.get_labor_per_day ∧
      SF.fuel i = 65 * ((max 1 (SF.billing_days i) : ℤ) : ℚ) ∧
      (65 : ℚ) ≤ SF.fuel i) ∧
    (SF.required_ft i ≤ 0 → SF.labor_cost i = 0 ∧ SF.fuel i = 0) ∧
    (∀ d : ℤ, Pricing.fuel_cost d true = 100 * ((max 1 d : ℤ) : ℚ) ∧
      Pricing.fuel_cost d false = 0) ∧
    (∀ n : ℤ, 0 < n →
      Pricing.job_days_silt n = ⌈(n : ℚ) / Pricing.PRODUCTION_RATE_LF_PER_DAY⌉) ∧
    (∀ n : ℤ, n ≤ 0 → Pricing.job_days_silt n = 0) := by
  refine ⟨?_, ?_, ?_, ?_, ?_⟩
  · intro h
    have hdays : SF.billing_days i = ⌈SF.required_ft i / SF.PROD_LF_PER_DAY⌉ := by
      simp only [SF.billing_days, SF.project_days, h, if_true]
    have hpos : 0 < SF.required_ft i / SF.PROD_LF_PER_DAY := by
      apply div_pos h
      norm_num [SF.PROD_LF_PER_DAY]
    have hone : 1 ≤ SF.billing_days i := by
      rw [hdays]
      exact Int.ceil_pos.mpr hpos
    have h0b : (0 : ℤ) ≤ SF.billing_days i := le_trans zero_le_one hone
    refine ⟨hdays, hone, ?_, ?_, ?_⟩
    · simp only [SF.labor_cost, SF.project_days, h, if_true]
    · simp only [SF.fuel, P.fuel_cost, decide_eq_true_eq, h, if_true,
        max_eq_right h0b, max_eq_right hone]
    · simp only [SF.fuel, P.fuel_cost, decide_eq_true_eq, h, if_true,
        max_eq_right h0b]
      have hcast : (1 : ℚ) ≤ ((SF.billing_days i : ℤ) : ℚ) := by exact_mod_cast hone
      nlinarith
  · intro h
    have hn : ¬ 0 < SF.required_ft i := not_lt.mpr h
    constructor
    · simp [SF.labor_cost, SF.project_days, hn]
    · simp [SF.fuel, P.fuel_cost, hn]
  · intro d
    constructor
    · simp [Pricing.fuel_cost, Pricing.FUEL_RATE_PER_DAY]
    · simp [Pricing.fuel_cost]
  · intro n hn
    simp [Pricing.job_days_silt, hn]
  · intro n hn
    simp [Pricing.job_days_silt, not_lt.mpr hn]

/-- Witness for C7 amended at `total = 1250`, `waste = 0`. -/
theorem C7_labor_fuel_amended_witness :
    (0 : ℚ) < SF.required_ft ⟨1250, 0, 8, 0.32, 1.80, 0, false, 2.5, false, false⟩ ∧
      SF.fuel ⟨1250, 0, 8, 0.32, 1.80, 0, false, 2.5, false, false⟩ =
        65 * ((max 1 (SF.billing_days ⟨1250, 0, 8, 0.32, 1.80, 0, false, 2.5, false, false⟩) : ℤ) : ℚ) := by
  have hpos : (0 : ℚ) < SF.required_ft ⟨1250, 0, 8, 0.32, 1.80, 0, false, 2.5, false, false⟩ := by
    norm_num [SF.required_ft, P.required_footage]
  exact ⟨hpos,
    ((C7_labor_fuel_amended ⟨1250, 0, 8, 0.32, 1.80, 0, false, 2.5, false, false⟩).1 hpos).2.2.2.1⟩

namespace Cart
/-! ## `pages/01_Silt_Fence.py`: export cart (session keys
`export_locked_lines`, `preview_live_hidden_ids`, `last_fence_signature`,
and the helpers `_build_live_pack`, `_sort_key`, `_with_id`, the
signature-lock block at lines 619-624, the preview merge at lines
1015-1018, and the row-deletion block at lines 1253-1263). -/

structure Line where
  id : String
  qty : ℚ
  unit : String
  item : String
  price_each : ℚ
  line_total : ℚ
deriving DecidableEq

/-- Session-state triple
`(export_locked_lines, preview_live_hidden_ids, last_fence_signature)`. -/
structure State where
  locked : List Line
  hidden : List String
  lastSig : Option String
deriving DecidableEq

/-- `_build_live_pack()`: the current live lines (install/removal/caps, an
explicit list here) minus those whose id is in `preview_live_hidden_ids`. -/
def build_live_pack (live : List Line) (hidden : List String) : List Line :=
  live.filter (fun ln => ln.id ∉ hidden)

/-- Contiguous-substring search on character lists. -/
def containsSub : List Char → List Char → Bool
  | pat, [] => pat.isEmpty
  | pat, c :: rest => pat.isPrefixOf (c :: rest) || containsSub pat rest

/-- Python's `"Removal" in item`. -/
def hasRemoval (item : String) : Bool :=
  containsSub "Removal".data item.data

/-- `_sort_key`: install (LF, not removal) → removal → others, as 0/1/2. -/
def sort_key (ln : Line) : ℕ :=
  if ln.unit = "LF" ∧ hasRemoval ln.item = false then 0
  else if hasRemoval ln.item = true then 1
  else 2

/-- `sorted(..., key=_sort_key)`: Python's sort is stable and `_sort_key`
takes only the values 0, 1, 2, so the sorted list is exactly the three
key-buckets concatenated in input order. -/
def sort_preview (ls : List Line) : List Line :=
  ls.filter (fun l => sort_key l = 0) ++
    (ls.filter (fun l => sort_key l = 1) ++ ls.filter (fun l => sort_key l = 2))

/-- The preview at lines 1015-1018:
`sorted(locked + _build_live_pack(), key=_sort_key)`. -/
def preview_lines (st : State) (live : List Line) : List Line :=
  sort_preview (st.locked ++ build_live_pack live st.hidden)

/-- `_with_id(line)`: replace the id by a freshly generated unique one. -/
def with_id (ln : Line) (fresh : String) : Line := { ln with id := fresh }

/-- The signature lock block (lines 619-624) plus the final
`last_fence_signature = current_sig` write: when a previously stored
signature exists and differs, append every visible live line to the locked
list under a fresh id (the `uuid4` outputs are the `freshIds` list, consumed
positionally) and reset the hidden ids. -/
def lock_on_sig_change (st : State) (currentSig : String) (live : List Line)
    (freshIds : List String) : State :=
  if st.lastSig ≠ none ∧ st.lastSig ≠ some currentSig then
    { locked := st.locked ++ List.zipWith with_id (build_live_pack live st.hidden) freshIds,
      hidden := [],
      lastSig := some currentSig }
  else
    { st with lastSig := some currentSig }

/-- Python's `rid.startswith("live_")` as a character-list prefix test. -/
def startsWithLive (r : String) : Bool :=
  "live_".data.isPrefixOf r.data

/-- The row-deletion block (lines 1253-1263): when the deletion set is
non-empty, ids starting with `"live_"` join `preview_live_hidden_ids`
(a Python set union — modelled by list union, specified up to membership)
and every locked line whose id is in the set is filtered out. -/
def delete_rows (st : State) (toDelete : List String) : State :=
  if toDelete = [] then st
  else
    { st with
      hidden := st.hidden ∪ toDelete.filter (fun r => startsWithLive r),
      locked := st.locked.filter (fun ln => ln.id ∉ toDelete) }

/-- The dedup-by-id operation described by the spec (locked entries first,
hence first occurrence per id wins). -/
def dedup_by_id_aux : List String → List Line → List Line
  | _, [] => []
  | seen, l :: ls =>
      if l.id ∈ seen then dedup_by_id_aux seen ls
      else l :: dedup_by_id_aux (l.id :: seen) ls

def dedup_by_id (ls : List Line) : List Line := dedup_by_id_aux [] ls

theorem build_live_pack_nil_hidden (live : List Line) :
    build_live_pack live [] = live := by
  simp [build_live_pack]

theorem sort_key_cases (a : Line) : sort_key a = 0 ∨ sort_key a = 1 ∨ sort_key a = 2 := by
  unfold sort_key
  by_cases h0 : a.unit = "LF" ∧ hasRemoval a.item = false
  · simp [h0]
  · by_cases h1 : hasRemoval a.item = true
    · simp [h0, h1]
    · simp [h0, h1]
      tauto

theorem sort_preview_perm (ls : List Line) : List.Perm (sort_preview ls) ls := by
  induction ls with
  | nil => simp [sort_preview]
  | cons a ls ih =>
    rcases sort_key_cases a with h | h | h
    · have heq : sort_preview (a :: ls) =
          a :: (ls.filter (fun l => sort_key l = 0) ++
            (ls.filter (fun l => sort_key l = 1) ++ ls.filter (fun l => sort_key l = 2))) := by
        simp [sort_preview, List.filter_cons, h]
      rw [heq]
      exact ih.cons a
    · have heq : sort_preview (a :: ls) =
          ls.filter (fun l => sort_key l = 0) ++
            (a :: (ls.filter (fun l => sort_key l = 1) ++ ls.filter (fun l => sort_key l = 2))) := by
        simp [sort_preview, List.filter_cons, h]
      rw [heq]
      exact List.perm_middle.trans (ih.cons a)
    · have heq : sort_preview (a :: ls) =
          ls.filter (fun l => sort_key l = 0) ++
            (ls.filter (fun l => sort_key l = 1) ++
              (a :: ls.filter (fun l => sort_key l = 2))) := by
        simp [sort_preview, List.filter_cons, h]
      rw [heq]
      have p2 : List.Perm
          (ls.filter (fun l => sort_key l = 0) ++
            (ls.filter (fun l => sort_key l = 1) ++ (a :: ls.filter (fun l => sort_key l = 2))))
          (ls.filter (fun l => sort_key l = 0) ++
            (a :: (ls.filter (fun l => sort_key l = 1) ++ ls.filter (fun l => sort_key l = 2)))) :=
        List.Perm.append_left _ List.perm_middle
      exact (p2.trans List.perm_middle).trans (ih.cons a)

theorem sort_preview_sorted (ls : List Line) :
    (sort_preview ls).Pairwise (fun x y => sort_key x ≤ sort_key y) := by
  have hmem : ∀ (k : ℕ) (x : Line), x ∈ ls.filter (fun l => sort_key l = k) → sort_key x = k := by
    intro k x hx
    have := List.of_mem_filter hx
    simpa using this
  have hbucket : ∀ k : ℕ, (ls.filter (fun l => sort_key l = k)).Pairwise
      (fun x y => sort_key x ≤ sort_key y) := by
    intro k
    exact List.pairwise_of_forall_mem_list fun x hx y hy => by
      rw [hmem k x hx, hmem k y hy]
  unfold sort_preview
  rw [List.pairwise_append]
  refine ⟨hbucket 0, ?_, ?_⟩
  · rw [List.pairwise_append]
    refine ⟨hbucket 1, hbucket 2, ?_⟩
    intro x hx y hy
    rw [hmem 1 x hx, hmem 2 y hy]
    norm_num
  · intro x hx y hy
    rcases List.mem_append.mp hy with hy1 | hy2
    · rw [hmem 0 x hx, hmem 1 y hy1]; norm_num
    · rw [hmem 0 x hx, hmem 2 y hy2]; norm_num

theorem dedup_by_id_aux_eq_self (ls : List Line) :
    ∀ seen : List String, (∀ l ∈ ls, l.id ∉ seen) → (ls.map Line.id).Nodup →
      dedup_by_id_aux seen ls = ls := by
  induction ls with
  | nil => intro seen _ _; rfl
  | cons a l ih =>
    intro seen hseen hnd
    simp only [List.map_cons, List.nodup_cons] at hnd
    have ha : a.id ∉ seen := hseen a (List.mem_cons_self a l)
    have step : dedup_by_id_aux seen (a :: l) = a :: dedup_by_id_aux (a.id :: seen) l := by
      simp only [dedup_by_id_aux, ha, if_false]
    rw [step, ih (a.id :: seen) ?_ hnd.2]
    intro x hx
    rw [List.mem_cons]
    push_neg
    constructor
    · intro hcontra
      exact hnd.1 (hcontra ▸ List.mem_map_of_mem Line.id hx)
    · exact hseen x (List.mem_cons_of_mem a hx)

theorem dedup_by_id_eq_self (ls : List Line) (hnd : (ls.map Line.id).Nodup) :
    dedup_by_id ls = ls :=
  dedup_by_id_aux_eq_self ls [] (fun _ _ => List.not_mem_nil _) hnd

theorem map_id_zipWith_with_id (pack : List Line) :
    ∀ fresh : List String, fresh.length = pack.length →
      (List.zipWith with_id pack fresh).map Line.id = fresh := by
  induction pack with
  | nil =>
    intro fresh h
    rw [List.length_nil, List.length_eq_zero] at h
    subst h
    rfl
  | cons a l ih =>
    intro fresh h
    cases fresh with
    | nil => simp at h
    | cons f fs =>
      simp only [List.zipWith_cons_cons, List.map_cons]
      rw [ih fs (by simpa using h)]
      rfl

theorem sort_preview_filter_key (ls : List Line) (j k : ℕ) :
    (ls.filter (fun l => sort_key l = j)).filter (fun l => sort_key l = k) =
      if j = k then ls.filter (fun l => sort_key l = j) else [] := by
  by_cases hjk : j = k
  · subst hjk
    rw [if_pos rfl]
    apply List.filter_eq_self.mpr
    intro a ha
    have := List.of_mem_filter ha
    simpa using this
  · rw [if_neg hjk]
    apply List.filter_eq_nil_iff.mpr
    intro a ha
    have hj := List.of_mem_filter ha
    simp only [decide_eq_true_eq] at hj ⊢
    rw [hj]
    exact fun hc => hjk hc

theorem sort_preview_idem (ls : List Line) :
    sort_preview (sort_preview ls) = sort_preview ls := by
  show sort_preview
      (ls.filter (fun l => sort_key l = 0) ++
        (ls.filter (fun l => sort_key l = 1) ++ ls.filter (fun l => sort_key l = 2))) =
    sort_preview ls
  unfold sort_preview
  simp only [List.filter_append]
  rw [sort_preview_filter_key ls 0 0, sort_preview_filter_key ls 1 0,
    sort_preview_filter_key ls 2 0, sort_preview_filter_key ls 0 1,
    sort_preview_filter_key ls 1 1, sort_preview_filter_key ls 2 1,
    sort_preview_filter_key ls 0 2, sort_preview_filter_key ls 1 2,
    sort_preview_filter_key ls 2 2]
  norm_num

theorem filter_length_of_unique (locked : List Line) (d : String)
    (hmem : d ∈ locked.map Line.id) (hnd : (locked.map Line.id).Nodup) :
    (locked.filter (fun ln => ln.id ≠ d)).length + 1 = locked.length := by
  induction locked with
  | nil => simp at hmem
  | cons a l ih =>
    simp only [List.map_cons, List.nodup_cons] at hnd
    by_cases hd : a.id = d
    · have hfl : l.filter (fun ln => ln.id ≠ d) = l := by
        apply List.filter_eq_self.mpr
        intro x hx
        have hxa : x.id ≠ a.id := fun hc => hnd.1 (hc ▸ List.mem_map_of_mem Line.id hx)
        have hxne : x.id ≠ d := hd ▸ hxa
        simp [hxne]
      have hfc : (a :: l).filter (fun ln => ln.id ≠ d) = l.filter (fun ln => ln.id ≠ d) := by
        simp [List.filter_cons, hd]
      rw [hfc, hfl]
      simp
    · have hdl : d ∈ l.map Line.id := by
        rcases List.mem_cons.mp hmem with hc | hc
        · exact absurd hc.symm hd
        · exact hc
      have hfc : (a :: l).filter (fun ln => ln.id ≠ d) =
          a :: l.filter (fun ln => ln.id ≠ d) := by
        simp [List.filter_cons, hd]
      rw [hfc, List.length_cons, List.length_cons, ← ih hdl hnd.2]

theorem lock_unchanged_sig (st0 : State) (sig : String) (l2 : List Line)
    (f2 : List String) (h : st0.lastSig = some sig) :
    (lock_on_sig_change st0 sig l2 f2).locked = st0.locked ∧
    (lock_on_sig_change st0 sig l2 f2).hidden = st0.hidden := by
  have hcond : ¬ (st0.lastSig ≠ none ∧ st0.lastSig ≠ some sig) := by
    intro hc
    exact hc.2 h
  constructor <;> simp only [lock_on_sig_change, hcond, if_false]

theorem lock_changed_sig_hidden (st0 : State) (sig : String) (l2 : List Line)
    (f2 : List String) (h1 : st0.lastSig ≠ none) (h2 : st0.lastSig ≠ some sig) :
    (lock_on_sig_change st0 sig l2 f2).hidden = [] := by
  simp only [lock_on_sig_change, if_pos (And.intro h1 h2)]

end Cart

/-- C4: when the recomputed signature differs from the stored non-null one,
every live line not in `hidden_live_ids` is appended to `locked_lines` under a
freshly generated id and `hidden_live_ids` is reset to `[]`; an evaluation
with an unchanged signature leaves `locked_lines`/`hidden_live_ids` untouched
(so the lock fires exactly once per transition), and the next preview is a
permutation of the old locked lines, the newly locked copies and the new
live pack, with no id duplicated when the generated ids are fresh. -/
theorem C4_signature_lock (st : Cart.State) (s sig : String) (live : List Cart.Line)
    (fresh : List String)
    (hlast : st.lastSig = some s) (hne : s ≠ sig)
    (hlen : fresh.length = (Cart.build_live_pack live st.hidden).length) :
    (Cart.lock_on_sig_change st sig live fresh).locked =
        st.locked ++ List.zipWith Cart.with_id (Cart.build_live_pack live st.hidden) fresh ∧
    (Cart.lock_on_sig_change st sig live fresh).hidden = [] ∧
    (Cart.lock_on_sig_change st sig live fresh).lastSig = some sig ∧
    (List.zipWith Cart.with_id (Cart.build_live_pack live st.hidden) fresh).map Cart.Line.id
        = fresh ∧
    (∀ st0 : Cart.State, st0.lastSig = some sig → ∀ l2 f2,
        (Cart.lock_on_sig_change st0 sig l2 f2).locked = st0.locked ∧
        (Cart.lock_on_sig_change st0 sig l2 f2).hidden = st0.hidden) ∧
    (∀ l2 f2,
        (Cart.lock_on_sig_change (Cart.lock_on_sig_change st sig live fresh) sig l2 f2).locked =
          (Cart.lock_on_sig_change st sig live fresh).locked ∧
        (Cart.lock_on_sig_change (Cart.lock_on_sig_change st sig live fresh) sig l2 f2).hidden =
          (Cart.lock_on_sig_change st sig live fresh).hidden) ∧
    (∀ live2 : List Cart.Line,
        List.Perm (Cart.preview_lines (Cart.lock_on_sig_change st sig live fresh) live2)
          ((st.locked ++ List.zipWith Cart.with_id (Cart.build_live_pack live st.hidden) fresh)
            ++ live2) ∧
        ((((st.locked ++
              List.zipWith Cart.with_id (Cart.build_live_pack live st.hidden) fresh)
            ++ live2).map Cart.Line.id).Nodup →
          ((Cart.preview_lines (Cart.lock_on_sig_change st sig live fresh) live2).map
            Cart.Line.id).Nodup)) := by
  have h1 : st.lastSig ≠ none := by rw [hlast]; exact Option.some_ne_none s
  have h2 : st.lastSig ≠ some sig := by
    rw [hlast]
    intro hc
    exact hne (Option.some.inj hc)
  have hstep : Cart.lock_on_sig_change st sig live fresh =
      { locked := st.locked ++
          List.zipWith Cart.with_id (Cart.build_live_pack live st.hidden) fresh,
        hidden := [], lastSig := some sig } := by
    simp only [Cart.lock_on_sig_change, if_pos (And.intro h1 h2)]
  refine ⟨by rw [hstep], by rw [hstep], by rw [hstep],
    Cart.map_id_zipWith_with_id _ fresh hlen,
    fun st0 h l2 f2 => Cart.lock_unchanged_sig st0 sig l2 f2 h,
    fun l2 f2 => Cart.lock_unchanged_sig _ sig l2 f2 (by rw [hstep]),
    fun live2 => ?_⟩
  have hprev : Cart.preview_lines (Cart.lock_on_sig_change st sig live fresh) live2 =
      Cart.sort_preview
        ((st.locked ++
            List.zipWith Cart.with_id (Cart.build_live_pack live st.hidden) fresh) ++ live2) := by
    rw [Cart.preview_lines, hstep]
    rw [Cart.build_live_pack_nil_hidden]
  constructor
  · rw [hprev]
    exact Cart.sort_preview_perm _
  · intro hnod
    rw [hprev]
    have hperm := (Cart.sort_preview_perm
      ((st.locked ++
          List.zipWith Cart.with_id (Cart.build_live_pack live st.hidden) fresh) ++ live2)).map
        Cart.Line.id
    exact (hperm.nodup_iff).mpr hnod

/-- Witness for C4 at a two-line live pack and a signature change
from `SF|14|4` to `SF|12.5|4`. -/
theorem C4_signature_lock_witness :
    (Cart.lock_on_sig_change ⟨[], [], some "SF|14|4"⟩ "SF|12.5|4"
        [⟨"live_install", 100, "LF", "14 Gauge Silt Fence", 2.5, 250⟩,
         ⟨"live_caps", 10, "EA", "Safety Caps (OSHA)", 3.9, 39⟩] ["u1", "u2"]).locked =
      [⟨"u1", 100, "LF", "14 Gauge Silt Fence", 2.5, 250⟩,
       ⟨"u2", 10, "EA", "Safety Caps (OSHA)", 3.9, 39⟩] ∧
    (Cart.lock_on_sig_change ⟨[], [], some "SF|14|4"⟩ "SF|12.5|4"
        [⟨"live_install", 100, "LF", "14 Gauge Silt Fence", 2.5, 250⟩,
         ⟨"live_caps", 10, "EA", "Safety Caps (OSHA)", 3.9, 39⟩] ["u1", "u2"]).hidden = [] := by
  have h := C4_signature_lock ⟨[], [], some "SF|14|4"⟩ "SF|14|4" "SF|12.5|4"
    [⟨"live_install", 100, "LF", "14 Gauge Silt Fence", 2.5, 250⟩,
     ⟨"live_caps", 10, "EA", "Safety Caps (OSHA)", 3.9, 39⟩] ["u1", "u2"]
    rfl (by decide) (by rfl)
  exact ⟨by rw [h.1]; rfl, h.2.1⟩

/-- C5: the displayed preview is `locked_lines` plus the live lines not in
`hidden_live_ids`; since ids are unique in every reachable state
(locked ids are uuid-based, live ids are the fixed `live_*` names), the
code's plain concatenation agrees with the spec's dedup-by-id with locked
precedence; the list is then stably sorted by the fixed key — LF
install-type lines first, removal second, everything else last — and
re-merging with no state change reproduces the identical ordered list. -/
theorem C5_preview_merge (st : Cart.State) (live : List Cart.Line)
    (hnd : ((st.locked ++ Cart.build_live_pack live st.hidden).map Cart.Line.id).Nodup) :
    Cart.preview_lines st live =
      Cart.sort_preview (Cart.dedup_by_id (st.locked ++ Cart.build_live_pack live st.hidden)) ∧
    List.Perm (Cart.preview_lines st live)
      (st.locked ++ Cart.build_live_pack live st.hidden) ∧
    (Cart.preview_lines st live).Pairwise
      (fun x y => Cart.sort_key x ≤ Cart.sort_key y) ∧
    Cart.sort_preview (Cart.preview_lines st live) = Cart.preview_lines st live := by
  refine ⟨?_, ?_, ?_, ?_⟩
  · rw [Cart.dedup_by_id_eq_self _ hnd]
    rfl
  · exact Cart.sort_preview_perm _
  · exact Cart.sort_preview_sorted _
  · exact Cart.sort_preview_idem _

/-- Witness for C5 on one locked line and one visible live line. -/
theorem C5_preview_merge_witness :
    (((Cart.State.mk [⟨"locked_1", 50, "LF", "14 Gauge Silt Fence", 2.5, 125⟩] [] none).locked
        ++ Cart.build_live_pack [⟨"live_removal", 50, "LF", "Fence Removal", 1.6, 80⟩] []).map
          Cart.Line.id).Nodup ∧
    Cart.preview_lines
        (Cart.State.mk [⟨"locked_1", 50, "LF", "14 Gauge Silt Fence", 2.5, 125⟩] [] none)
        [⟨"live_removal", 50, "LF", "Fence Removal", 1.6, 80⟩] =
      Cart.sort_preview (Cart.dedup_by_id
        ((Cart.State.mk [⟨"locked_1", 50, "LF", "14 Gauge Silt Fence", 2.5, 125⟩] [] none).locked
          ++ Cart.build_live_pack [⟨"live_removal", 50, "LF", "Fence Removal", 1.6, 80⟩] [])) := by
  have hnd : (((Cart.State.mk [⟨"locked_1", 50, "LF", "14 Gauge Silt Fence", 2.5, 125⟩] [] none).locked
      ++ Cart.build_live_pack [⟨"live_removal", 50, "LF", "Fence Removal", 1.6, 80⟩] []).map
        Cart.Line.id).Nodup := by
    simp [Cart.build_live_pack]
  exact ⟨hnd, (C5_preview_merge _ _ hnd).1⟩

/-- C8: deleting a preview row whose id is a locked id removes exactly that
entry from `locked_lines` (one entry fewer, every other entry kept, order
preserved by the filter) and leaves the hidden-id set and signature
untouched; deleting a row whose id is a live id leaves `locked_lines`
unchanged, adds exactly that id to `hidden_live_ids` (a Python set union,
specified up to membership), suppresses that line from the live pack, and
the suppression lasts until the next signature change, which resets
`hidden_live_ids` to `[]`. -/
theorem C8_row_deletion (st : Cart.State) (d : String) (live : List Cart.Line) :
    (Cart.startsWithLive d = false → d ∈ st.locked.map Cart.Line.id →
      (st.locked.map Cart.Line.id).Nodup →
      ((Cart.delete_rows st [d]).locked = st.locked.filter (fun ln => ln.id ≠ d) ∧
       (Cart.delete_rows st [d]).locked.length + 1 = st.locked.length ∧
       (∀ ln ∈ st.locked, ln.id ≠ d → ln ∈ (Cart.delete_rows st [d]).locked) ∧
       (∀ ln ∈ (Cart.delete_rows st [d]).locked, ln ∈ st.locked ∧ ln.id ≠ d) ∧
       (∀ x : String, x ∈ (Cart.delete_rows st [d]).hidden ↔ x ∈ st.hidden) ∧
       (Cart.delete_rows st [d]).lastSig = st.lastSig)) ∧
    (Cart.startsWithLive d = true → (∀ ln ∈ st.locked, ln.id ≠ d) →
      ((Cart.delete_rows st [d]).locked = st.locked ∧
       (∀ x : String, x ∈ (Cart.delete_rows st [d]).hidden ↔ x ∈ st.hidden ∨ x = d) ∧
       (∀ ln ∈ Cart.build_live_pack live (Cart.delete_rows st [d]).hidden, ln.id ≠ d) ∧
       (∀ sig2 l2 f2, (Cart.delete_rows st [d]).lastSig ≠ none →
          (Cart.delete_rows st [d]).lastSig ≠ some sig2 →
          (Cart.lock_on_sig_change (Cart.delete_rows st [d]) sig2 l2 f2).hidden = []))) := by
  have hne : ([d] : List String) ≠ [] := by simp
  have hlocked : (Cart.delete_rows st [d]).locked =
      st.locked.filter (fun ln => ln.id ∉ ([d] : List String)) := by
    simp only [Cart.delete_rows, hne, if_false]
  have hhid : (Cart.delete_rows st [d]).hidden =
      st.hidden ∪ ([d] : List String).filter (fun r => Cart.startsWithLive r) := by
    simp only [Cart.delete_rows, hne, if_false]
  have hsig : (Cart.delete_rows st [d]).lastSig = st.lastSig := by
    simp only [Cart.delete_rows, hne, if_false]
  have hfeq : st.locked.filter (fun ln => ln.id ∉ ([d] : List String)) =
      st.locked.filter (fun ln => ln.id ≠ d) := by
    apply List.filter_congr
    intro x _
    simp
  constructor
  · intro hds hmem hnd
    have hl : (Cart.delete_rows st [d]).locked = st.locked.filter (fun ln => ln.id ≠ d) := by
      rw [hlocked, hfeq]
    refine ⟨hl, ?_, ?_, ?_, ?_, hsig⟩
    · rw [hl]
      exact Cart.filter_length_of_unique st.locked d hmem hnd
    · intro ln hln hlnd
      rw [hl]
      exact List.mem_filter.mpr ⟨hln, by simpa using hlnd⟩
    · intro ln hln
      rw [hl] at hln
      have := List.mem_filter.mp hln
      refine ⟨this.1, by simpa using this.2⟩
    · intro x
      rw [hhid]
      have hfilt : ([d] : List String).filter (fun r => Cart.startsWithLive r) = [] := by
        simp [hds]
      rw [hfilt]
      simp [List.mem_union_iff]
  · intro hds hnot
    have hl : (Cart.delete_rows st [d]).locked = st.locked := by
      rw [hlocked, hfeq]
      apply List.filter_eq_self.mpr
      intro x hx
      simpa using hnot x hx
    have hfilt : ([d] : List String).filter (fun r => Cart.startsWithLive r) = [d] := by
      simp [hds]
    have hmemh : ∀ x : String,
        x ∈ (Cart.delete_rows st [d]).hidden ↔ x ∈ st.hidden ∨ x = d := by
      intro x
      rw [hhid, hfilt]
      simp [List.mem_union_iff]
    refine ⟨hl, hmemh, ?_, ?_⟩
    · intro ln hln
      have hnm := List.of_mem_filter hln
      simp only [decide_eq_true_eq] at hnm
      intro hc
      exact hnm ((hmemh ln.id).mpr (Or.inr hc))
    · intro sig2 l2 f2 hn1 hn2
      exact Cart.lock_changed_sig_hidden _ sig2 l2 f2 hn1 hn2

/-- Witness for C8: deleting the locked id `locked_1` and, separately, the
live id `live_removal`, from a one-locked/one-live state. -/
theorem C8_row_deletion_witness :
    (Cart.startsWithLive "locked_1" = false ∧
      (Cart.delete_rows
          (Cart.State.mk [⟨"locked_1", 50, "LF", "14 Gauge Silt Fence", 2.5, 125⟩] [] none)
          ["locked_1"]).locked.length + 1 =
        (Cart.State.mk [⟨"locked_1", 50, "LF", "14 Gauge Silt Fence", 2.5, 125⟩] [] none).locked.length) ∧
    (Cart.startsWithLive "live_removal" = true ∧
      (Cart.delete_rows
          (Cart.State.mk [⟨"locked_1", 50, "LF", "14 Gauge Silt Fence", 2.5, 125⟩] [] none)
          ["live_removal"]).locked =
        (Cart.State.mk [⟨"locked_1", 50, "LF", "14 Gauge Silt Fence", 2.5, 125⟩] [] none).locked) := by
  constructor
  · refine ⟨by decide, ?_⟩
    exact (((C8_row_deletion
      (Cart.State.mk [⟨"locked_1", 50, "LF", "14 Gauge Silt Fence", 2.5, 125⟩] [] none)
      "locked_1" []).1 (by decide) (by simp) (by simp))).2.1
  · refine ⟨by decide, ?_⟩
    exact (((C8_row_deletion
      (Cart.State.mk [⟨"locked_1", 50, "LF", "14 Gauge Silt Fence", 2.5, 125⟩] [] none)
      "live_removal" []).2 (by decide) (by simp))).1

namespace MCart
/-! ## `core/cart.py`: material cart entries and `grouped_totals()`.
The Python dict `groups` is modelled by its content, a map
`sku → Option entry`; the claims make no statement about iteration order. -/

structure MEntry where
  sku : String
  description : String
  unit : String
  qty : ℚ
  source_page : String
  notes : String
  alt_qty_label : String
  alt_qty_value : Option ℚ
deriving DecidableEq

/-- The `else` branch of the `grouped_totals` loop body: add `qty`, and add
`alt_qty_value` only when the incoming label is truthy (non-empty) and equals
the stored one and the incoming value is not `None`
(`(stored or 0) + av` reads a missing stored value as `0`). -/
def mergeEntry (g item : MEntry) : MEntry :=
  let g1 : MEntry := { g with qty := g.qty + item.qty }
  if item.alt_qty_label ≠ "" ∧ g1.alt_qty_label = item.alt_qty_label then
    match item.alt_qty_value with
    | some av => { g1 with alt_qty_value := some (g1.alt_qty_value.getD 0 + av) }
    | none => g1
  else g1

/-- One iteration of the `grouped_totals` loop: a new sku stores a copy of
the entry, a seen sku merges into the stored entry. -/
def addEntry (gs : String → Option MEntry) (item : MEntry) : String → Option MEntry :=
  fun sku =>
    if sku = item.sku then
      match gs item.sku with
      | none => some item
      | some g => some (mergeEntry g item)
    else gs sku

/-- `grouped_totals()` over an explicit entry list. -/
def grouped_totals (items : List MEntry) : String → Option MEntry :=
  items.foldl addEntry (fun _ => none)

/-- The qty field survives the alt-value branch untouched. -/
theorem mergeEntry_qty (g item : MEntry) : (mergeEntry g item).qty = g.qty + item.qty := by
  unfold mergeEntry
  by_cases h : item.alt_qty_label ≠ "" ∧ g.alt_qty_label = item.alt_qty_label
  · cases item.alt_qty_value <;> simp [h]
  · simp [h]

theorem mergeEntry_fixed_fields (g item : MEntry) :
    (mergeEntry g item).sku = g.sku ∧
    (mergeEntry g item).description = g.description ∧
    (mergeEntry g item).unit = g.unit ∧
    (mergeEntry g item).source_page = g.source_page ∧
    (mergeEntry g item).notes = g.notes ∧
    (mergeEntry g item).alt_qty_label = g.alt_qty_label := by
  unfold mergeEntry
  by_cases h : item.alt_qty_label ≠ "" ∧ g.alt_qty_label = item.alt_qty_label
  · cases item.alt_qty_value <;> simp [h]
  · simp [h]

theorem mergeEntry_alt_dropped (g item : MEntry)
    (h : g.alt_qty_label ≠ item.alt_qty_label) :
    (mergeEntry g item).alt_qty_value = g.alt_qty_value := by
  unfold mergeEntry
  have hcond : ¬ (item.alt_qty_label ≠ "" ∧ g.alt_qty_label = item.alt_qty_label) := by
    intro hc
    exact h hc.2
  simp [hcond]

theorem mergeEntry_alt_added (g item : MEntry) (av : ℚ)
    (h1 : item.alt_qty_label ≠ "") (h2 : g.alt_qty_label = item.alt_qty_label)
    (h3 : item.alt_qty_value = some av) :
    (mergeEntry g item).alt_qty_value = some (g.alt_qty_value.getD 0 + av) := by
  unfold mergeEntry
  simp [h1, h2, h3]

/-- Reads the quantity a map slot holds (an absent slot counts `0`). -/
def slotQty (o : Option MEntry) : ℚ :=
  match o with
  | none => 0
  | some g => g.qty

theorem grouped_totals_qty_invariant (items : List MEntry) :
    ∀ (acc : String → Option MEntry) (sku : String),
      slotQty (items.foldl addEntry acc sku) =
        slotQty (acc sku) + ((items.filter (fun it => it.sku = sku)).map MEntry.qty).sum := by
  induction items with
  | nil => intro acc sku; simp
  | cons it rest ih =>
    intro acc sku
    rw [List.foldl_cons, ih (addEntry acc it) sku]
    by_cases h : it.sku = sku
    · have hf : (it :: rest).filter (fun x => x.sku = sku) =
          it :: rest.filter (fun x => x.sku = sku) := by
        simp [List.filter_cons, h]
      have hslot : slotQty (addEntry acc it sku) = slotQty (acc sku) + it.qty := by
        unfold addEntry
        rw [if_pos h.symm, ← h]
        cases hacc : acc it.sku with
        | none => simp [slotQty, hacc]
        | some g => simp [slotQty, hacc, mergeEntry_qty]
      rw [hslot, hf]
      simp only [List.map_cons, List.sum_cons]
      ring
    · have hf : (it :: rest).filter (fun x => x.sku = sku) =
          rest.filter (fun x => x.sku = sku) := by
        simp [List.filter_cons, h]
      have hslot : slotQty (addEntry acc it sku) = slotQty (acc sku) := by
        unfold addEntry
        rw [if_neg (fun hc => h hc.symm)]
      rw [hslot, hf]

end MCart

/-- C9: grouping material cart entries by SKU stores a copy of the first
entry per SKU (all fields other than `qty`/`alt_qty_value` stay the first
entry's), accumulates `qty` as the sum over all entries of that SKU, and adds
`alt_qty_value` to the stored secondary total only when the incoming label
equals the stored one (differing labels are silently dropped); entries
`(sku "X", qty 10)` and `(sku "X", qty 5)` aggregate to qty `15`. -/
theorem C9_grouped_totals (items : List MCart.MEntry) (sku : String) :
    (∀ g : MCart.MEntry, MCart.grouped_totals items sku = some g →
      g.qty = ((items.filter (fun it => it.sku = sku)).map MCart.MEntry.qty).sum) ∧
    (∀ g item : MCart.MEntry, g.alt_qty_label ≠ item.alt_qty_label →
      (MCart.mergeEntry g item).alt_qty_value = g.alt_qty_value) ∧
    (∀ (g item : MCart.MEntry) (av : ℚ), item.alt_qty_label ≠ "" →
      g.alt_qty_label = item.alt_qty_label → item.alt_qty_value = some av →
      (MCart.mergeEntry g item).alt_qty_value = some (g.alt_qty_value.getD 0 + av)) ∧
    (∀ g item : MCart.MEntry,
      (MCart.mergeEntry g item).description = g.description ∧
      (MCart.mergeEntry g item).unit = g.unit ∧
      (MCart.mergeEntry g item).alt_qty_label = g.alt_qty_label) ∧
    (MCart.grouped_totals
        [⟨"X", "widget", "EA", 10, "page", "", "", none⟩,
         ⟨"X", "other", "EA", 5, "page", "", "", none⟩] "X" =
      some ⟨"X", "widget", "EA", 15, "page", "", "", none⟩) := by
  refine ⟨?_, fun g item h => MCart.mergeEntry_alt_dropped g item h,
    fun g item av h1 h2 h3 => MCart.mergeEntry_alt_added g item av h1 h2 h3,
    fun g item => ⟨(MCart.mergeEntry_fixed_fields g item).2.1,
      (MCart.mergeEntry_fixed_fields g item).2.2.1,
      (MCart.mergeEntry_fixed_fields g item).2.2.2.2.2⟩, ?_⟩
  · intro g hg
    have h := MCart.grouped_totals_qty_invariant items (fun _ => none) sku
    rw [show items.foldl MCart.addEntry (fun _ => none) = MCart.grouped_totals items from rfl,
      hg] at h
    simpa [MCart.slotQty] using h
  · show MCart.addEntry (MCart.addEntry (fun _ => none)
        ⟨"X", "widget", "EA", 10, "page", "", "", none⟩)
        ⟨"X", "other", "EA", 5, "page", "", "", none⟩ "X" = _
    norm_num [MCart.addEntry, MCart.mergeEntry]

/-- Witness for C9 applying the qty-sum clause at the two-entry example. -/
theorem C9_grouped_totals_witness :
    MCart.grouped_totals
        [⟨"X", "widget", "EA", 10, "page", "", "", none⟩,
         ⟨"X", "other", "EA", 5, "page", "", "", none⟩] "X" =
        some ⟨"X", "widget", "EA", 15, "page", "", "", none⟩ ∧
      (15 : ℚ) = ((([⟨"X", "widget", "EA", 10, "page", "", "", none⟩,
          ⟨"X", "other", "EA", 5, "page", "", "", none⟩] : List MCart.MEntry).filter
            (fun it => it.sku = "X")).map MCart.MEntry.qty).sum := by
  have hg : MCart.grouped_totals
      [⟨"X", "widget", "EA", 10, "page", "", "", none⟩,
       ⟨"X", "other", "EA", 5, "page", "", "", none⟩] "X" =
      some ⟨"X", "widget", "EA", 15, "page", "", "", none⟩ := by
    show MCart.addEntry (MCart.addEntry (fun _ => none)
        ⟨"X", "widget", "EA", 10, "page", "", "", none⟩)
        ⟨"X", "other", "EA", 5, "page", "", "", none⟩ "X" = _
    norm_num [MCart.addEntry, MCart.mergeEntry]
  refine ⟨hg, ?_⟩
  have := (C9_grouped_totals
    [⟨"X", "widget", "EA", 10, "page", "", "", none⟩,
     ⟨"X", "other", "EA", 5, "page", "", "", none⟩] "X").1
    ⟨"X", "widget", "EA", 15, "page", "", "", none⟩ hg
  simpa using this

namespace PB
/-! ## `core/pricebook.py`: the public lookup API.
A normalized pricebook table row (`code, name, unit, price`); a missing /
NaN price is `none`.  `get_item` indexes the table by the exact code string
(`df.loc[code] if code in df.index else None`; the loader`s `_normalize`
strips table codes, but `get_item` applies no normalization to the query). -/

structure Row where
  code : String
  name : String
  unit : String
  price : Option ℚ
deriving DecidableEq

/-- `get_item(code)`. -/
def get_item (table : List Row) (code : String) : Option Row :=
  table.find? (fun r => r.code = code)

/-- `get_price(code, default=None)`:
`float(item["price"]) if item and pd.notna(item["price"]) else default`. -/
def get_price (table : List Row) (code : String) (default : Option ℚ) : Option ℚ :=
  match get_item table code with
  | some r =>
    match r.price with
    | some p => some p
    | none => default
  | none => default

/-- ASCII lower-casing of one character. -/
def lowChar (c : Char) : Char :=
  if 'A' ≤ c ∧ c ≤ 'Z' then Char.ofNat (c.toNat + 32) else c

def isSpaceChar (c : Char) : Bool :=
  c = ' ' || c = '\t' || c = '\n' || c = '\r'

/-- Strip leading and trailing whitespace from a character list. -/
def trimChars (cs : List Char) : List Char :=
  ((cs.dropWhile isSpaceChar).reverse.dropWhile isSpaceChar).reverse

/-- Trimmed, case-folded form of a code string. -/
def normCode (s : String) : List Char :=
  (trimChars s.data).map lowChar

/-- Modelled from the spec (§4.1 PriceLookup), for comparison with the
source `get_price` above: the spec's contract
`get_price(code, unit, default)` looks the code up case-insensitively and
trimmed, filters by unit (case-insensitively) when one is given, returns
`default` when provided and no row matches, and otherwise signals
`NotFoundError`. -/
def get_price_specContract (table : List Row) (code : String) (unitArg : Option String)
    (default : Option ℚ) : Except String ℚ :=
  let c := normCode code
  match table.find? (fun r =>
      normCode r.code = c &&
        (match unitArg with
         | some u => decide (r.unit.data.map lowChar = u.data.map lowChar)
         | none => true)) with
  | some r =>
    match r.price with
    | some p => Except.ok p
    | none =>
      match default with
      | some d => Except.ok d
      | none => Except.error "NotFoundError"
  | none =>
    match default with
    | some d => Except.ok d
    | none => Except.error "NotFoundError"

end PB

/-- C10 counterexample: the claim describes a case-insensitive, trimmed
lookup with a unit filter that signals `NotFoundError` when no row matches
and no default is given.  The source `get_price` takes no unit argument,
matches the code exactly (case-sensitively, untrimmed), and returns
`None` instead of signalling: on the one-row table with code `abc`, the
query `ABC` falls through to the default where the spec contract finds the
row, and the query `zzz` with no default yields `None` where the spec
contract signals `NotFoundError`. -/
theorem C10_get_price_counterexample :
    PB.get_price [⟨"abc", "Widget", "EA", some 2⟩] "ABC" (some (21/20)) = some (21/20) ∧
    PB.get_price_specContract [⟨"abc", "Widget", "EA", some 2⟩] "ABC" none none =
      Except.ok 2 ∧
    PB.get_price [⟨"abc", "Widget", "EA", some 2⟩] "zzz" none = none ∧
    PB.get_price_specContract [⟨"abc", "Widget", "EA", some 2⟩] "zzz" none none =
      Except.error "NotFoundError" := by
  refine ⟨?_, ?_, ?_, ?_⟩
  · simp [PB.get_price, PB.get_item, List.find?]
  · simp [PB.get_price_specContract, List.find?, PB.normCode, PB.trimChars, PB.lowChar,
      PB.isSpaceChar]
  · simp [PB.get_price, PB.get_item, List.find?]
  · simp [PB.get_price_specContract, List.find?, PB.normCode, PB.trimChars, PB.lowChar,
      PB.isSpaceChar]

/-- C10 amended: `get_price(code, default=None)` looks the exact code string
up in the loaded table (no trimming or case folding of the query, no unit
argument), returns the stored price when the row exists and has one, and
otherwise returns the supplied default — `None` when no default was given —
never raising; in particular `get_price("unknown-sku", default=1.05)`
returns `1.05`. -/
theorem C10_get_price_amended (table : List PB.Row) (code : String) :
    ((∀ r ∈ table, r.code ≠ code) → ∀ default, PB.get_price table code default = default) ∧
    (∀ r, PB.get_item table code = some r → r.code = code ∧ r ∈ table) ∧
    (∀ r p, PB.get_item table code = some r → r.price = some p →
      ∀ default, PB.get_price table code default = some p) ∧
    PB.get_price [⟨"abc", "Widget", "EA", some 2⟩] "unknown-sku" (some (21/20)) =
      some (21/20) := by
  refine ⟨?_, ?_, ?_, ?_⟩
  · intro hall default
    have hfind : PB.get_item table code = none := by
      unfold PB.get_item
      rw [List.find?_eq_none]
      intro r hr
      simpa using hall r hr
    simp [PB.get_price, hfind]
  · intro r hr
    constructor
    · have := List.find?_some hr
      simpa using this
    · exact List.mem_of_find?_eq_some hr
  · intro r p hr hp default
    simp [PB.get_price, hr, hp]
  · simp [PB.get_price, PB.get_item, List.find?]

/-- Witness for C10 amended: a lookup of `zzz` misses the one-row table. -/
theorem C10_get_price_amended_witness :
    (∀ r ∈ ([⟨"abc", "Widget", "EA", some 2⟩] : List PB.Row), r.code ≠ "zzz") ∧
      PB.get_price [⟨"abc", "Widget", "EA", some 2⟩] "zzz" (some 5) = some 5 := by
  have hall : ∀ r ∈ ([⟨"abc", "Widget", "EA", some 2⟩] : List PB.Row), r.code ≠ "zzz" := by
    intro r hr
    simp at hr
    simp [hr]
  exact ⟨hall, (C10_get_price_amended [⟨"abc", "Widget", "EA", some 2⟩] "zzz").1 hall (some 5)⟩
